import Mathlib

/-!
Shallow embedding of the Joyan logo-cropping scripts:
`analyze_logos.py`, `crop_logos.py`, `crop_logos_tight.py`, `crop_logos_v2.py`.

An image is a width x height grid of RGBA pixels together with a mode tag
(PIL `'RGB'` / `'RGBA'`); channel values live in [0, 255].  Pixel access is a
total function `Nat → Nat → Pixel`; only coordinates `x < width`, `y < height`
are ever consulted by the embedded operations.
-/

namespace Joyan

/-- Pixel with red, green, blue, alpha channels (each conceptually in [0,255]).
For `'RGB'`-mode images the alpha field is carried but ignored (PIL stores
no alpha band there; we keep it 255 by convention). -/
structure Pixel where
  r : Nat
  g : Nat
  b : Nat
  a : Nat
deriving DecidableEq, Repr

/-- PIL image mode, restricted to the two modes the scripts distinguish. -/
inductive Mode where
  | RGB
  | RGBA
deriving DecidableEq, Repr

/-- Decoded raster image: mode, size, and pixel grid (x = column, y = row). -/
structure Image where
  mode : Mode
  width : Nat
  height : Nat
  pixel : Nat → Nat → Pixel

/-- Pillow's MULDIV255 rounding primitive from ImagingUtils.h:
`tmp = a*b + 128; result = ((tmp >> 8) + tmp) >> 8`.  Used by `Image.paste`
when a mask is supplied. -/
def mulDiv255 (a b : Nat) : Nat :=
  let t := a * b + 128
  (t / 256 + t) / 256

/-- Pillow's BLEND macro: blend `in1` (destination) with `in2` (source) under
`mask` (0 = keep destination, 255 = take source). -/
def blend (mask in1 in2 : Nat) : Nat :=
  mulDiv255 in1 (255 - mask) + mulDiv255 in2 mask

/-- The white pixel used for all background fills in the scripts. -/
def whiteP : Pixel := ⟨255, 255, 255, 255⟩

/-- Composite an RGBA pixel onto an opaque white background using its own
alpha as the paste mask: `bg = Image.new('RGB', size, (255,255,255));
bg.paste(img, mask=img.split()[3])` (crop_logos.py lines 17-21,
crop_logos_tight.py lines 20-23, crop_logos_v2.py lines 21-24). -/
def compositeOntoWhite (p : Pixel) : Pixel :=
  ⟨blend p.a 255 p.r, blend p.a 255 p.g, blend p.a 255 p.b, 255⟩

/-- The RGB pixel the detection code sees after the scripts' mode
normalisation: `'RGBA'` images are composited onto white, `'RGB'` images are
used as-is. -/
def toRGBPixel (mode : Mode) (p : Pixel) : Pixel :=
  match mode with
  | .RGB => ⟨p.r, p.g, p.b, 255⟩
  | .RGBA => compositeOntoWhite p

/-! ### Bounding-box search over a boolean mask

All four scripts reduce a boolean content mask the same way numpy does:
`rows = np.any(mask, axis=1)`, `cols = np.any(mask, axis=0)`, then take the
first and last true indices of each. -/

/-- Column `x` of a `w × h` mask contains a content pixel. -/
def colAny (m : Nat → Nat → Bool) (h x : Nat) : Bool :=
  (List.range h).any fun y => m x y

/-- Row `y` of a `w × h` mask contains a content pixel. -/
def rowAny (m : Nat → Nat → Bool) (w y : Nat) : Bool :=
  (List.range w).any fun x => m x y

/-- Indices of columns holding content (`np.where(cols)[0]`), in increasing
order. -/
def contentCols (m : Nat → Nat → Bool) (w h : Nat) : List Nat :=
  (List.range w).filter (colAny m h)

/-- Indices of rows holding content (`np.where(rows)[0]`), in increasing
order. -/
def contentRows (m : Nat → Nat → Bool) (w h : Nat) : List Nat :=
  (List.range h).filter (rowAny m w)

/-- `mask.any()` over the whole `w × h` region. -/
def maskAny (m : Nat → Nat → Bool) (w h : Nat) : Bool :=
  (List.range w).any fun x => (List.range h).any fun y => m x y

/-- Inclusive bounding box `(x_min, y_min, x_max, y_max)` of the true cells of
a `w × h` mask, or `none` when the mask is entirely false.  Mirrors
`y_indices[0], y_indices[-1]` / `x_indices[0], x_indices[-1]` in the
scripts. -/
def maskBBox (m : Nat → Nat → Bool) (w h : Nat) : Option (Nat × Nat × Nat × Nat) :=
  match (contentCols m w h).head?, (contentRows m w h).head?,
        (contentCols m w h).getLast?, (contentRows m w h).getLast? with
  | some x0, some y0, some x1, some y1 => some (x0, y0, x1, y1)
  | _, _, _, _ => none

/-! ### The four content detectors -/

/-- Content mask of `analyze_logos.py` (line 29):
`(alpha > 50) & ((r < 240) | (g < 240) | (b < 240))`.  The script first
converts the image to `'RGBA'`; a PIL `'RGB'`-to-`'RGBA'` conversion adds an
all-255 alpha band, which our `Pixel.a = 255` convention already models. -/
def analyzeMask (img : Image) (x y : Nat) : Bool :=
  let p := img.pixel x y
  decide (50 < p.a) && (decide (p.r < 240) || decide (p.g < 240) || decide (p.b < 240))

/-- Content bounds of `analyze_logos.py`'s `analyze_logo` (lines 29-56): the
`content_bounds` field `(x_min, y_min, x_max, y_max)` with INCLUSIVE upper
bounds, or `none` when the mask is empty (the script then returns the error
string "No content detected").  The surrounding dict (sizes, padding
percentages, `needs_crop`) is reporting glue outside this embedding. -/
def analyze_logo (img : Image) : Option (Nat × Nat × Nat × Nat) :=
  maskBBox (analyzeMask img) img.width img.height

/-- Content mask of `crop_logos.py`'s `get_content_bounds` (lines 25-32):
after compositing onto white, `ImageChops.difference(img, bg)` against an
all-white background followed by `getbbox()` selects exactly the pixels that
differ from pure white `(255,255,255)` in at least one channel. -/
def gcbMask (img : Image) (x y : Nat) : Bool :=
  let p := toRGBPixel img.mode (img.pixel x y)
  !(decide (p.r = 255) && decide (p.g = 255) && decide (p.b = 255))

/-- The `get_content_bounds` detector of `crop_logos.py` (lines 14-34).
PIL's `getbbox()` returns `(left, upper, right, lower)` with EXCLUSIVE right
and lower edges, or `None` when the difference image is all zero. -/
def get_content_bounds (img : Image) : Option (Nat × Nat × Nat × Nat) :=
  (maskBBox (gcbMask img) img.width img.height).map
    fun (x0, y0, x1, y1) => (x0, y0, x1 + 1, y1 + 1)

/-- The near-white background test `is_white = (r > 240) & (g > 240) & (b > 240)`
of `crop_logos_tight.py` line 45 / `crop_logos_v2.py` line 50. -/
def isWhitePix (p : Pixel) : Bool :=
  decide (240 < p.r) && decide (240 < p.g) && decide (240 < p.b)

/-- The near-black background test `is_black = (r < 15) & (g < 15) & (b < 15)`
of `crop_logos_tight.py` line 46 / `crop_logos_v2.py` line 51. -/
def isBlackPix (p : Pixel) : Bool :=
  decide (p.r < 15) && decide (p.g < 15) && decide (p.b < 15)

/-- First-pass content mask of `crop_logos_tight.py` (lines 45-49) /
`crop_logos_v2.py` (lines 50-54), over interior coordinates
`(xi, yi)` of the border-cropped region:
`content_mask = ~(is_white | is_black)`. -/
def tightMask (img : Image) (bx bY xi yi : Nat) : Bool :=
  let p := toRGBPixel img.mode (img.pixel (bx + xi) (bY + yi))
  !(isWhitePix p || isBlackPix p)

/-- Fallback mask used when the first pass finds nothing
(`crop_logos_tight.py` lines 51-53): `content_mask = ~is_white`. -/
def nonWhiteMask (img : Image) (bx bY xi yi : Nat) : Bool :=
  let p := toRGBPixel img.mode (img.pixel (bx + xi) (bY + yi))
  !(isWhitePix p)

/-- The `find_tight_content` detector of `crop_logos_tight.py` (lines 15-81),
parameterised by the border sizes `bx = int(width * border_threshold)`,
`bY = int(height * border_threshold)` (lines 32-33; the script computes them
by float multiplication with the default threshold 0.05).  The interior is
`data[bY : height-bY, bx : width-bx]`; an empty interior returns `None`
(line 38-39).  The box is translated back to full-image coordinates and
normalised to exclusive upper bounds `(x_max+1, y_max+1)` (line 81). -/
def find_tight_content (img : Image) (bx bY : Nat) : Option (Nat × Nat × Nat × Nat) :=
  let iw := img.width - 2 * bx
  let ih := img.height - 2 * bY
  if iw = 0 ∨ ih = 0 then
    none
  else
    let m := if maskAny (tightMask img bx bY) iw ih then tightMask img bx bY
             else nonWhiteMask img bx bY
    (maskBBox m iw ih).map
      fun (x0, y0, x1, y1) => (x0 + bx, y0 + bY, x1 + bx + 1, y1 + bY + 1)

/-- The `remove_border_and_find_content` detector of `crop_logos_v2.py`
(lines 15-86).  Its body is line-for-line the same algorithm as
`find_tight_content` in `crop_logos_tight.py` (same masks, same fallback,
same border slicing, same exclusive-bound normalisation), so it is embedded
as the same function. -/
def remove_border_and_find_content (img : Image) (bx bY : Nat) :
    Option (Nat × Nat × Nat × Nat) :=
  find_tight_content img bx bY

/-! ### Padding, cropping, square canvas -/

/-- The padded-and-clamped bounds computed by all three crop functions
(`crop_logos.py` lines 48-60, `crop_logos_tight.py` lines 95-109,
`crop_logos_v2.py` lines 100-114):
`pad = int(content_size * padding_percent / 100)` — for non-negative
integers Python's `int(a*b/100)` equals floor division `a*b // 100`, which
is Lean's `Nat` division — then
`(max(0, x1-pad_x), max(0, y1-pad_y), min(w, x2+pad_x), min(h, y2+pad_y))`;
truncated `Nat` subtraction is exactly `max(0, ·)`. -/
def padBounds (imgW imgH x1 y1 x2 y2 percent : Nat) : Nat × Nat × Nat × Nat :=
  let padX := (x2 - x1) * percent / 100
  let padY := (y2 - y1) * percent / 100
  (x1 - padX, y1 - padY, min imgW (x2 + padX), min imgH (y2 + padY))

/-- PIL `img.crop((x1, y1, x2, y2))`: an image of size
`(x2-x1) × (y2-y1)` whose pixel `(x, y)` is the source pixel
`(x1+x, y1+y)`.  (All crops in the scripts stay inside the source image, so
PIL's zero-fill of out-of-range pixels never fires.) -/
def cropImage (img : Image) (x1 y1 x2 y2 : Nat) : Image :=
  { mode := img.mode, width := x2 - x1, height := y2 - y1,
    pixel := fun x y => img.pixel (x1 + x) (y1 + y) }

/-- Pillow paste-with-mask of a source pixel onto a destination pixel:
every band of the destination, alpha included, is blended under the mask. -/
def pasteBlend (dst src : Pixel) (mask : Nat) : Pixel :=
  ⟨blend mask dst.r src.r, blend mask dst.g src.g,
   blend mask dst.b src.b, blend mask dst.a src.a⟩

/-- The square-canvas step of `crop_logos.py` (lines 65-79):
`max_dim = max(width, height)`, a white canvas in the crop's own mode, paste
at `offset = ((max_dim-width)//2, (max_dim-height)//2)`.  An `'RGBA'` crop is
pasted with itself as the mask (line 77), i.e. alpha-blended onto the white
canvas; an `'RGB'` crop is copied opaquely (line 79). -/
def toSquare (cropped : Image) : Image :=
  let side := max cropped.width cropped.height
  let ox := (side - cropped.width) / 2
  let oy := (side - cropped.height) / 2
  { mode := cropped.mode, width := side, height := side,
    pixel := fun x y =>
      if ox ≤ x ∧ x < ox + cropped.width ∧ oy ≤ y ∧ y < oy + cropped.height then
        match cropped.mode with
        | .RGB => let p := cropped.pixel (x - ox) (y - oy); ⟨p.r, p.g, p.b, 255⟩
        | .RGBA => pasteBlend whiteP (cropped.pixel (x - ox) (y - oy))
                     ((cropped.pixel (x - ox) (y - oy)).a)
      else whiteP }

/-- The square-canvas step of `crop_logos_v2.py` (lines 119-128): the canvas
is always `'RGB'` white and the paste carries no mask, so an `'RGBA'` crop is
first converted to `'RGB'` by dropping its alpha band (PIL converts the
pasted image to the canvas mode), leaving the RGB channels untouched. -/
def toSquareV2 (cropped : Image) : Image :=
  let side := max cropped.width cropped.height
  let ox := (side - cropped.width) / 2
  let oy := (side - cropped.height) / 2
  { mode := .RGB, width := side, height := side,
    pixel := fun x y =>
      if ox ≤ x ∧ x < ox + cropped.width ∧ oy ≤ y ∧ y < oy + cropped.height then
        let p := cropped.pixel (x - ox) (y - oy); ⟨p.r, p.g, p.b, 255⟩
      else whiteP }

/-- Post-detection body of `crop_logos.py`'s `crop_with_padding`
(lines 48-81): pad, clamp, crop, force square. -/
def cropFromBBox (img : Image) (x1 y1 x2 y2 percent : Nat) : Image :=
  let (nx1, ny1, nx2, ny2) := padBounds img.width img.height x1 y1 x2 y2 percent
  toSquare (cropImage img nx1 ny1 nx2 ny2)

/-- `crop_with_padding` of `crop_logos.py` (lines 36-81, default
`padding_percent=8`): if no content is detected the input image is returned
as-is (lines 44-46). -/
def crop_with_padding (img : Image) (percent : Nat) : Image :=
  match get_content_bounds img with
  | none => img
  | some (x1, y1, x2, y2) => cropFromBBox img x1 y1 x2 y2 percent

/-- `crop_tight_with_padding` of `crop_logos_tight.py` (lines 83-114, default
`padding_percent=5`): pad, clamp and crop, no square canvas; `None` bounds
return the input unchanged (lines 91-93).  `bx`/`bY` are the border sizes
passed through to `find_tight_content`. -/
def crop_tight_with_padding (img : Image) (bx bY percent : Nat) : Image :=
  match find_tight_content img bx bY with
  | none => img
  | some (x1, y1, x2, y2) =>
    let (nx1, ny1, nx2, ny2) := padBounds img.width img.height x1 y1 x2 y2 percent
    cropImage img nx1 ny1 nx2 ny2

/-- `crop_with_padding` of `crop_logos_v2.py` (lines 88-130, default
`padding_percent=10`): like the `crop_logos.py` variant but with the
border-ignoring detector and the always-`'RGB'` square canvas; `None` bounds
return the input unchanged (lines 95-98). -/
def crop_with_padding_v2 (img : Image) (bx bY percent : Nat) : Image :=
  match remove_border_and_find_content img bx bY with
  | none => img
  | some (x1, y1, x2, y2) =>
    let (nx1, ny1, nx2, ny2) := padBounds img.width img.height x1 y1 x2 y2 percent
    toSquareV2 (cropImage img nx1 ny1 nx2 ny2)

/-! ### Lemmas about the mask bounding-box search -/

theorem mem_of_getLast?_eq {l : List Nat} {a : Nat} (h : l.getLast? = some a) :
    a ∈ l := by
  cases l with
  | nil => simp at h
  | cons x t =>
    rw [List.getLast?_eq_getLast (x :: t) (by simp)] at h
    exact Option.some_inj.mp h ▸ List.getLast_mem _

theorem head?_le_getLast? {l : List Nat} (hs : l.Pairwise (· < ·)) {a b : Nat}
    (ha : l.head? = some a) (hb : l.getLast? = some b) : a ≤ b := by
  cases l with
  | nil => simp at ha
  | cons x t =>
    have hax : a = x := by
      have : (x :: t).head? = some x := rfl
      rw [this] at ha
      exact (Option.some_inj.mp ha).symm
    have hbmem : b ∈ x :: t := mem_of_getLast?_eq hb
    rcases List.mem_cons.mp hbmem with hbx | hbt
    · omega
    · have hx := (List.pairwise_cons.mp hs).1 b hbt
      omega

theorem contentCols_pairwise (m : Nat → Nat → Bool) (w h : Nat) :
    (contentCols m w h).Pairwise (· < ·) :=
  (List.pairwise_lt_range w).filter _

theorem contentRows_pairwise (m : Nat → Nat → Bool) (w h : Nat) :
    (contentRows m w h).Pairwise (· < ·) :=
  (List.pairwise_lt_range h).filter _

theorem mem_contentCols_lt {m : Nat → Nat → Bool} {w h x : Nat}
    (hx : x ∈ contentCols m w h) : x < w := by
  have := (List.mem_filter.mp hx).1
  exact List.mem_range.mp this

theorem mem_contentRows_lt {m : Nat → Nat → Bool} {w h y : Nat}
    (hy : y ∈ contentRows m w h) : y < h := by
  have := (List.mem_filter.mp hy).1
  exact List.mem_range.mp this

/-- Shape of a successful bounding-box search: the box is ordered and lies
inside the `w × h` search region (inclusive coordinates). -/
theorem maskBBox_some_bounds {m : Nat → Nat → Bool} {w h x0 y0 x1 y1 : Nat}
    (hb : maskBBox m w h = some (x0, y0, x1, y1)) :
    x0 ≤ x1 ∧ x1 < w ∧ y0 ≤ y1 ∧ y1 < h := by
  unfold maskBBox at hb
  split at hb
  next a b c d hcc hcr hlc hlr =>
    obtain ⟨h1, h2, h3, h4⟩ : a = x0 ∧ b = y0 ∧ c = x1 ∧ d = y1 := by
      have := Option.some_inj.mp hb
      simp only [Prod.mk.injEq] at this
      tauto
    subst h1; subst h2; subst h3; subst h4
    refine ⟨head?_le_getLast? (contentCols_pairwise m w h) hcc hlc,
            mem_contentCols_lt (mem_of_getLast?_eq hlc),
            head?_le_getLast? (contentRows_pairwise m w h) hcr hlr,
            mem_contentRows_lt (mem_of_getLast?_eq hlr)⟩
  next => exact Option.noConfusion hb

/-- A mask that is false on the whole search region has no bounding box. -/
theorem maskBBox_of_false {m : Nat → Nat → Bool} {w h : Nat}
    (hm : ∀ x y, x < w → y < h → m x y = false) :
    maskBBox m w h = none := by
  have hcols : contentCols m w h = [] := by
    unfold contentCols
    rw [List.filter_eq_nil_iff]
    intro x hx
    unfold colAny
    simp only [List.any_eq_true, List.mem_range, not_exists, not_and,
      Bool.not_eq_true]
    intro y hy
    exact hm x y (List.mem_range.mp hx) hy
  simp [maskBBox, hcols]

/-- A mask that is false on the whole search region reports `any = false`. -/
theorem maskAny_of_false {m : Nat → Nat → Bool} {w h : Nat}
    (hm : ∀ x y, x < w → y < h → m x y = false) :
    maskAny m w h = false := by
  simp only [maskAny, List.any_eq_false, List.mem_range]
  intro x hx
  simp only [List.any_eq_true, List.mem_range, not_exists, not_and,
    Bool.not_eq_true]
  intro y hy
  exact hm x y hx hy

/-- A mask that is true on the whole (nonempty) search region has the full
region as its bounding box. -/
theorem maskBBox_of_true {m : Nat → Nat → Bool} {w h : Nat}
    (hw : 0 < w) (hh : 0 < h) (hm : ∀ x y, x < w → y < h → m x y = true) :
    maskBBox m w h = some (0, 0, w - 1, h - 1) := by
  obtain ⟨w', rfl⟩ : ∃ w', w = w' + 1 := ⟨w - 1, by omega⟩
  obtain ⟨h', rfl⟩ : ∃ h', h = h' + 1 := ⟨h - 1, by omega⟩
  have hcols : contentCols m (w' + 1) (h' + 1) = List.range (w' + 1) := by
    unfold contentCols
    rw [List.filter_eq_self]
    intro x hx
    simp only [colAny, List.any_eq_true, List.mem_range]
    exact ⟨0, Nat.succ_pos h', hm x 0 (List.mem_range.mp hx) (Nat.succ_pos h')⟩
  have hrows : contentRows m (w' + 1) (h' + 1) = List.range (h' + 1) := by
    unfold contentRows
    rw [List.filter_eq_self]
    intro y hy
    simp only [rowAny, List.any_eq_true, List.mem_range]
    exact ⟨0, Nat.succ_pos w', hm 0 y (Nat.succ_pos w') (List.mem_range.mp hy)⟩
  have hhead : ∀ n : Nat, (List.range (n + 1)).head? = some 0 := by
    intro n
    rw [List.range_succ_eq_map]
    rfl
  have hlast : ∀ n : Nat, (List.range (n + 1)).getLast? = some n := by
    intro n
    rw [List.range_succ]
    exact List.getLast?_concat _
  simp [maskBBox, hcols, hrows, hhead, hlast]

/-! ### Containment bounds for the detectors -/

/-- Any box returned by `find_tight_content` is strictly ordered and lies
inside the image (exclusive upper bounds). -/
theorem find_tight_content_bounds {img : Image} {bx bY x1 y1 x2 y2 : Nat}
    (h : find_tight_content img bx bY = some (x1, y1, x2, y2)) :
    x1 < x2 ∧ x2 ≤ img.width ∧ y1 < y2 ∧ y2 ≤ img.height := by
  simp only [find_tight_content] at h
  split at h
  · exact Option.noConfusion h
  next hguard =>
    obtain ⟨⟨a, b, c, d⟩, hbb, heq⟩ := Option.map_eq_some'.mp h
    obtain ⟨hac, hcw, hbd, hdh⟩ := maskBBox_some_bounds hbb
    simp only [Prod.mk.injEq] at heq
    obtain ⟨h1, h2, h3, h4⟩ := heq
    omega

/-- Any box returned by `remove_border_and_find_content` is strictly ordered
and lies inside the image (exclusive upper bounds). -/
theorem remove_border_and_find_content_bounds {img : Image} {bx bY x1 y1 x2 y2 : Nat}
    (h : remove_border_and_find_content img bx bY = some (x1, y1, x2, y2)) :
    x1 < x2 ∧ x2 ≤ img.width ∧ y1 < y2 ∧ y2 ≤ img.height :=
  find_tight_content_bounds h

/-- Any box returned by `get_content_bounds` is strictly ordered and lies
inside the image (exclusive upper bounds). -/
theorem get_content_bounds_bounds {img : Image} {x1 y1 x2 y2 : Nat}
    (h : get_content_bounds img = some (x1, y1, x2, y2)) :
    x1 < x2 ∧ x2 ≤ img.width ∧ y1 < y2 ∧ y2 ≤ img.height := by
  simp only [get_content_bounds] at h
  obtain ⟨⟨a, b, c, d⟩, hbb, heq⟩ := Option.map_eq_some'.mp h
  obtain ⟨hac, hcw, hbd, hdh⟩ := maskBBox_some_bounds hbb
  simp only [Prod.mk.injEq] at heq
  obtain ⟨h1, h2, h3, h4⟩ := heq
  omega

/-- Any bounds returned by `analyze_logo` are ordered and lie inside the
image; upper bounds are INCLUSIVE, so only `x1 ≤ x2 < width` holds. -/
theorem analyze_logo_bounds {img : Image} {x1 y1 x2 y2 : Nat}
    (h : analyze_logo img = some (x1, y1, x2, y2)) :
    x1 ≤ x2 ∧ x2 < img.width ∧ y1 ≤ y2 ∧ y2 < img.height :=
  maskBBox_some_bounds h

/-! ### Concrete test images -/

/-- The spec's round-trip image: 100 x 100 all-white `'RGB'` canvas with a
20 x 20 pure-black square covering pixels `[40,60) × [40,60)`. -/
def img100 : Image :=
  ⟨.RGB, 100, 100, fun x y =>
    if 40 ≤ x ∧ x < 60 ∧ 40 ≤ y ∧ y < 60 then ⟨0, 0, 0, 255⟩ else whiteP⟩

/-- The 22 x 22 crop of `img100` produced by the padded box `(39,39,61,61)`. -/
def c22 : Image := cropImage img100 39 39 61 61

/-- A 1 x 1 opaque black `'RGBA'` image: a single content pixel. -/
def oneBlack : Image := ⟨.RGBA, 1, 1, fun _ _ => ⟨0, 0, 0, 255⟩⟩

/-- A 1 x 1 `'RGB'` image whose only pixel is `(250,250,250)`: near-white but
not pure white. -/
def img250 : Image := ⟨.RGB, 1, 1, fun _ _ => ⟨250, 250, 250, 255⟩⟩

/-- A 20 x 20 `'RGB'` image whose pixels are all pure black `(0,0,0)`. -/
def black20 : Image := ⟨.RGB, 20, 20, fun _ _ => ⟨0, 0, 0, 255⟩⟩

/-- A 1 x 1 opaque white `'RGBA'` image: a uniform background image. -/
def white1 : Image := ⟨.RGBA, 1, 1, fun _ _ => whiteP⟩

/-- A 1 x 2 `'RGBA'` crop whose pixels are half-transparent black
`(0,0,0,128)`. -/
def cropRGBA : Image := ⟨.RGBA, 1, 2, fun _ _ => ⟨0, 0, 0, 128⟩⟩

/-! ### Claim C1 -/

/-- Claim C1, counterexample.  The claim demands `x_min < x_max` and
`y_min < y_max` for every non-null box, including `analyze_logo`'s
`content_bounds`.  But `analyze_logo` returns INCLUSIVE bounds: on a 1 x 1
image with a single black content pixel it returns `(0, 0, 0, 0)`, where
`x_min = x_max = 0`, so `x_min < x_max` fails. -/
theorem C1_counterexample :
    analyze_logo oneBlack = some (0, 0, 0, 0) ∧ ¬ (0 : Nat) < 0 := by
  constructor
  · decide
  · omega

/-- Claim C1, amended.  The three detectors that return boxes in
exclusive-upper-bound form (`find_tight_content`, `get_content_bounds`,
`remove_border_and_find_content`) satisfy the claim as stated:
`0 ≤ x_min < x_max ≤ width` and `0 ≤ y_min < y_max ≤ height`.
`analyze_logo`'s `content_bounds` are inclusive, so they satisfy
`0 ≤ x_min ≤ x_max < width` and `0 ≤ y_min ≤ y_max < height` instead
(lower bounds `0 ≤ _` are automatic in `Nat`). -/
theorem C1_bounds_containment :
    (∀ (img : Image) (bx bY x1 y1 x2 y2 : Nat),
      find_tight_content img bx bY = some (x1, y1, x2, y2) →
      x1 < x2 ∧ x2 ≤ img.width ∧ y1 < y2 ∧ y2 ≤ img.height) ∧
    (∀ (img : Image) (x1 y1 x2 y2 : Nat),
      get_content_bounds img = some (x1, y1, x2, y2) →
      x1 < x2 ∧ x2 ≤ img.width ∧ y1 < y2 ∧ y2 ≤ img.height) ∧
    (∀ (img : Image) (bx bY x1 y1 x2 y2 : Nat),
      remove_border_and_find_content img bx bY = some (x1, y1, x2, y2) →
      x1 < x2 ∧ x2 ≤ img.width ∧ y1 < y2 ∧ y2 ≤ img.height) ∧
    (∀ (img : Image) (x1 y1 x2 y2 : Nat),
      analyze_logo img = some (x1, y1, x2, y2) →
      x1 ≤ x2 ∧ x2 < img.width ∧ y1 ≤ y2 ∧ y2 < img.height) :=
  ⟨fun _ _ _ _ _ _ _ h => find_tight_content_bounds h,
   fun _ _ _ _ _ h => get_content_bounds_bounds h,
   fun _ _ _ _ _ _ _ h => remove_border_and_find_content_bounds h,
   fun _ _ _ _ _ h => analyze_logo_bounds h⟩

/-- Claim C1, witness: the amended theorem applied to concrete detections —
`img100` yields box `(40,40,60,60)` under all three exclusive-form detectors
(5-pixel borders for the interior ones), and `oneBlack` yields inclusive
bounds `(0,0,0,0)`. -/
theorem C1_bounds_containment_witness :
    (40 < 60 ∧ 60 ≤ img100.width ∧ 40 < 60 ∧ 60 ≤ img100.height) ∧
    (40 < 60 ∧ 60 ≤ img100.width ∧ 40 < 60 ∧ 60 ≤ img100.height) ∧
    (40 < 60 ∧ 60 ≤ img100.width ∧ 40 < 60 ∧ 60 ≤ img100.height) ∧
    (0 ≤ 0 ∧ 0 < oneBlack.width ∧ 0 ≤ 0 ∧ 0 < oneBlack.height) :=
  ⟨C1_bounds_containment.1 img100 5 5 40 40 60 60 (by decide),
   C1_bounds_containment.2.1 img100 40 40 60 60 (by decide),
   C1_bounds_containment.2.2.1 img100 5 5 40 40 60 60 (by decide),
   C1_bounds_containment.2.2.2 oneBlack 0 0 0 0 (by decide)⟩

/-! ### Claim C2 -/

/-- Claim C2, counterexample.  The claim asserts that under the near-white
rule a pixel with all channels strictly between 240 and 255, e.g.
`(250,250,250)`, is classified as background for every image — and its
sources include `get_content_bounds` of `crop_logos.py`.  But
`get_content_bounds` classifies a pixel as background only when it is
EXACTLY `(255,255,255)` (`ImageChops.difference` against a pure-white
canvas): on the 1 x 1 image whose sole pixel is `(250,250,250)` it returns
the non-null box `(0,0,1,1)`, i.e. it treats that pixel as content. -/
theorem C2_counterexample :
    get_content_bounds img250 = some (0, 0, 1, 1) := by
  decide

/-- Claim C2, amended.  The near-white rule of `crop_logos_tight.py` /
`crop_logos_v2.py` classifies a pixel as background iff
`r > 240 ∧ g > 240 ∧ b > 240`; under it `(250,250,250)` is background (the
all-`(250,250,250)` image yields `none` even after the fallback retry).
`get_content_bounds` of `crop_logos.py`, however, implements an exact-white
test, under which `(250,250,250)` is content. -/
theorem C2_near_white_rule :
    (∀ p : Pixel, isWhitePix p = true ↔ (240 < p.r ∧ 240 < p.g ∧ 240 < p.b)) ∧
    isWhitePix ⟨250, 250, 250, 255⟩ = true ∧
    find_tight_content img250 0 0 = none ∧
    get_content_bounds img250 = some (0, 0, 1, 1) := by
  refine ⟨?_, by decide, by decide, by decide⟩
  intro p
  simp [isWhitePix, and_assoc]

/-- Claim C2, witness: the pixel-level equivalence of the amended theorem
instantiated at the concrete pixel `(250,250,250,255)`. -/
theorem C2_near_white_rule_witness :
    isWhitePix ⟨250, 250, 250, 255⟩ = true ↔ (240 < 250 ∧ 240 < 250 ∧ 240 < 250) :=
  C2_near_white_rule.1 ⟨250, 250, 250, 255⟩

/-! ### Claim C3 -/

/-- Claim C3, confirmed.  The padded box computed by the crop functions
equals the spec formula — the first conjunct is the literal source
computation, and the two cast equations show that truncated `Nat`
subtraction is exactly `max(0, x1 − pad)` over the integers, with
`pad_x = ⌊content_w · percent / 100⌋` and `pad_y = ⌊content_h · percent / 100⌋` —
and all four padded coordinates stay within `[0, image_w] × [0, image_h]`
(lower bounds are automatic in `Nat`), whenever the input box starts inside
the image. -/
theorem C3_padding_formula_and_clamp (imgW imgH x1 y1 x2 y2 percent : Nat)
    (hx1 : x1 ≤ imgW) (hy1 : y1 ≤ imgH) :
    padBounds imgW imgH x1 y1 x2 y2 percent =
      (x1 - (x2 - x1) * percent / 100,
       y1 - (y2 - y1) * percent / 100,
       min imgW (x2 + (x2 - x1) * percent / 100),
       min imgH (y2 + (y2 - y1) * percent / 100)) ∧
    ((x1 - (x2 - x1) * percent / 100 : Nat) : Int) =
      max 0 ((x1 : Int) - ((x2 - x1) * percent / 100 : Nat)) ∧
    ((y1 - (y2 - y1) * percent / 100 : Nat) : Int) =
      max 0 ((y1 : Int) - ((y2 - y1) * percent / 100 : Nat)) ∧
    x1 - (x2 - x1) * percent / 100 ≤ imgW ∧
    y1 - (y2 - y1) * percent / 100 ≤ imgH ∧
    min imgW (x2 + (x2 - x1) * percent / 100) ≤ imgW ∧
    min imgH (y2 + (y2 - y1) * percent / 100) ≤ imgH := by
  refine ⟨rfl, ?_, ?_, ?_, ?_, ?_, ?_⟩ <;> omega

/-- Claim C3, witness: the padding formula applied to the box
`(40,40,60,60)` in a 100 x 100 image at 5 percent, where the pad is
`⌊20·5/100⌋ = 1` on each side. -/
theorem C3_padding_formula_and_clamp_witness :
    padBounds 100 100 40 40 60 60 5 =
      (40 - (60 - 40) * 5 / 100,
       40 - (60 - 40) * 5 / 100,
       min 100 (60 + (60 - 40) * 5 / 100),
       min 100 (60 + (60 - 40) * 5 / 100)) ∧
    ((40 - (60 - 40) * 5 / 100 : Nat) : Int) =
      max 0 ((40 : Int) - ((60 - 40) * 5 / 100 : Nat)) ∧
    ((40 - (60 - 40) * 5 / 100 : Nat) : Int) =
      max 0 ((40 : Int) - ((60 - 40) * 5 / 100 : Nat)) ∧
    40 - (60 - 40) * 5 / 100 ≤ 100 ∧
    40 - (60 - 40) * 5 / 100 ≤ 100 ∧
    min 100 (60 + (60 - 40) * 5 / 100) ≤ 100 ∧
    min 100 (60 + (60 - 40) * 5 / 100) ≤ 100 :=
  C3_padding_formula_and_clamp 100 100 40 40 60 60 5 (by omega) (by omega)

/-! ### Claim C4 -/

/-- Claim C4, confirmed.  On an image whose pixels are all pure black
`(0,0,0)` (opaque), the first-pass near-white-or-near-black content mask is
entirely false over the interior, and `find_tight_content` (after its
one-shot fallback to the near-white-only mask) returns the full interior
rectangle `(bx, bY, width−bx, height−bY)` — a non-null box — rather than
`None`; `remove_border_and_find_content` behaves identically. -/
theorem C4_all_black_fallback (img : Image) (bx bY : Nat)
    (hbx : 2 * bx < img.width) (hbY : 2 * bY < img.height)
    (hblack : ∀ x, x < img.width → ∀ y, y < img.height →
      img.pixel x y = ⟨0, 0, 0, 255⟩) :
    maskAny (tightMask img bx bY) (img.width - 2 * bx) (img.height - 2 * bY) = false ∧
    find_tight_content img bx bY =
      some (bx, bY, img.width - bx, img.height - bY) ∧
    remove_border_and_find_content img bx bY =
      some (bx, bY, img.width - bx, img.height - bY) := by
  have hRGB : ∀ m : Mode, toRGBPixel m ⟨0, 0, 0, 255⟩ = ⟨0, 0, 0, 255⟩ := by
    intro m; cases m <;> rfl
  have hpix : ∀ xi yi, xi < img.width - 2 * bx → yi < img.height - 2 * bY →
      img.pixel (bx + xi) (bY + yi) = ⟨0, 0, 0, 255⟩ := by
    intro xi yi hxi hyi
    exact hblack _ (by omega) _ (by omega)
  have hmask : ∀ xi yi, xi < img.width - 2 * bx → yi < img.height - 2 * bY →
      tightMask img bx bY xi yi = false := by
    intro xi yi hxi hyi
    simp only [tightMask, hpix xi yi hxi hyi, hRGB]
    rfl
  have hnw : ∀ xi yi, xi < img.width - 2 * bx → yi < img.height - 2 * bY →
      nonWhiteMask img bx bY xi yi = true := by
    intro xi yi hxi hyi
    simp only [nonWhiteMask, hpix xi yi hxi hyi, hRGB]
    rfl
  have hany : maskAny (tightMask img bx bY)
      (img.width - 2 * bx) (img.height - 2 * bY) = false :=
    maskAny_of_false hmask
  have hfind : find_tight_content img bx bY =
      some (bx, bY, img.width - bx, img.height - bY) := by
    simp only [find_tight_content]
    rw [if_neg (by omega), hany]
    simp only [Bool.false_eq_true, if_false]
    rw [maskBBox_of_true (by omega) (by omega) hnw]
    dsimp only [Option.map_some']
    simp only [Option.some.injEq, Prod.mk.injEq]
    omega
  exact ⟨hany, hfind, hfind⟩

/-- Claim C4, witness: the all-black 20 x 20 image with 1-pixel borders —
the first-pass mask is empty, and the detector returns the full interior
`(1, 1, 19, 19)`. -/
theorem C4_all_black_fallback_witness :
    maskAny (tightMask black20 1 1) (black20.width - 2 * 1) (black20.height - 2 * 1) = false ∧
    find_tight_content black20 1 1 =
      some (1, 1, black20.width - 1, black20.height - 1) ∧
    remove_border_and_find_content black20 1 1 =
      some (1, 1, black20.width - 1, black20.height - 1) :=
  C4_all_black_fallback black20 1 1 (by decide) (by decide) (by decide)

/-! ### Claim C5 -/

/-- Claim C5, confirmed.  The round-trip scenario on the synthetic 100 x 100
white image with a 20 x 20 black square on `[40,60) × [40,60)`:
`get_content_bounds` (no border margin) returns exactly `(40,40,60,60)`;
padding at 5 percent gives `(39,39,61,61)` (pad `= ⌊20·5/100⌋ = 1` per
side); and the square-canvas step on the resulting 22 x 22 crop returns a
22 x 22 canvas with every pixel unchanged. -/
theorem C5_round_trip :
    get_content_bounds img100 = some (40, 40, 60, 60) ∧
    padBounds 100 100 40 40 60 60 5 = (39, 39, 61, 61) ∧
    (toSquare c22).width = 22 ∧
    (toSquare c22).height = 22 ∧
    (∀ x, x < 22 → ∀ y, y < 22 → (toSquare c22).pixel x y = c22.pixel x y) :=
  ⟨by decide, by decide, by decide, by decide, by decide⟩

/-- Claim C5, witness: the pixel-preservation conjunct instantiated at the
corner pixel `(0, 0)` of the 22 x 22 crop. -/
theorem C5_round_trip_witness :
    (toSquare c22).pixel 0 0 = c22.pixel 0 0 :=
  C5_round_trip.2.2.2.2 0 (by decide) 0 (by decide)

/-! ### Claim C6 -/

/-- Claim C6, counterexample.  The claim says every pixel of the original
crop is unchanged in the square output.  For an `'RGBA'` crop,
`crop_logos.py` line 77 pastes with the crop itself as the mask, so partially
transparent pixels are alpha-blended with the white canvas: in the 1 x 2
crop whose pixels are `(0,0,0,128)`, the output pixel at the paste position
`(0,0)` is `(127,127,127,191)`, not the original `(0,0,0,128)`. -/
theorem C6_counterexample :
    (toSquare cropRGBA).pixel 0 0 = ⟨127, 127, 127, 191⟩ ∧
    cropRGBA.pixel 0 0 = ⟨0, 0, 0, 128⟩ := by
  exact ⟨by decide, by decide⟩

/-- Claim C6, amended.  `toSquare` always returns a canvas whose width and
height both equal `max(w, h)`, the crop is pasted at offset
`((max(w,h)−w)//2, (max(w,h)−h)//2)` with integer floor division, and pixels
outside the pasted rectangle are the white background.  The "every pixel of
the original crop is unchanged" part holds for `'RGB'`-mode crops (the
opaque-copy paste path); an `'RGBA'` crop is pasted with its own alpha as a
blending mask, so partially transparent pixels can change (see the
counterexample). -/
theorem C6_square_canvas (cropped : Image) :
    (toSquare cropped).width = max cropped.width cropped.height ∧
    (toSquare cropped).height = max cropped.width cropped.height ∧
    (cropped.mode = .RGB →
      ∀ x y, x < cropped.width → y < cropped.height →
      (toSquare cropped).pixel
          ((max cropped.width cropped.height - cropped.width) / 2 + x)
          ((max cropped.width cropped.height - cropped.height) / 2 + y) =
        ⟨(cropped.pixel x y).r, (cropped.pixel x y).g, (cropped.pixel x y).b, 255⟩) ∧
    (∀ x y,
      ¬ ((max cropped.width cropped.height - cropped.width) / 2 ≤ x ∧
         x < (max cropped.width cropped.height - cropped.width) / 2 + cropped.width ∧
         (max cropped.width cropped.height - cropped.height) / 2 ≤ y ∧
         y < (max cropped.width cropped.height - cropped.height) / 2 + cropped.height) →
      (toSquare cropped).pixel x y = whiteP) := by
  refine ⟨rfl, rfl, ?_, ?_⟩
  · intro hmode x y hx hy
    simp only [toSquare]
    rw [if_pos (by omega), hmode]
    simp only [Nat.add_sub_cancel_left]
  · intro x y hcond
    simp only [toSquare]
    rw [if_neg hcond]

/-- Claim C6, witness: the `'RGB'`-mode pixel-preservation part applied to
the 22 x 22 crop `c22` at pixel `(0, 0)`. -/
theorem C6_square_canvas_witness :
    (toSquare c22).pixel
        ((max c22.width c22.height - c22.width) / 2 + 0)
        ((max c22.width c22.height - c22.height) / 2 + 0) =
      ⟨(c22.pixel 0 0).r, (c22.pixel 0 0).g, (c22.pixel 0 0).b, 255⟩ :=
  (C6_square_canvas c22).2.2.1 rfl 0 0 (by decide) (by decide)

/-! ### Claim C7 -/

/-- Claim C7, confirmed.  An image all of whose pixels are opaque pure white
`(255,255,255,255)` is classified entirely as background by every detector:
`analyze_logo`, `get_content_bounds`, and — for every border size, including
after the near-white-only fallback retry — `find_tight_content` and
`remove_border_and_find_content` all return `none`. -/
theorem C7_uniform_background (img : Image)
    (hwhite : ∀ x, x < img.width → ∀ y, y < img.height → img.pixel x y = whiteP) :
    analyze_logo img = none ∧
    get_content_bounds img = none ∧
    (∀ bx bY, find_tight_content img bx bY = none) ∧
    (∀ bx bY, remove_border_and_find_content img bx bY = none) := by
  have hRGB : ∀ m : Mode, toRGBPixel m whiteP = whiteP := by
    intro m; cases m <;> rfl
  have hana : ∀ x y, x < img.width → y < img.height → analyzeMask img x y = false := by
    intro x y hx hy
    simp only [analyzeMask, hwhite x hx y hy]
    rfl
  have hgcb : ∀ x y, x < img.width → y < img.height → gcbMask img x y = false := by
    intro x y hx hy
    simp only [gcbMask, hwhite x hx y hy, hRGB]
    rfl
  have htight : ∀ bx bY, find_tight_content img bx bY = none := by
    intro bx bY
    simp only [find_tight_content]
    split
    · rfl
    next hguard =>
      have htm : ∀ xi yi, xi < img.width - 2 * bx → yi < img.height - 2 * bY →
          tightMask img bx bY xi yi = false := by
        intro xi yi hxi hyi
        simp only [tightMask, hwhite (bx + xi) (by omega) (bY + yi) (by omega), hRGB]
        rfl
      have hnw : ∀ xi yi, xi < img.width - 2 * bx → yi < img.height - 2 * bY →
          nonWhiteMask img bx bY xi yi = false := by
        intro xi yi hxi hyi
        simp only [nonWhiteMask, hwhite (bx + xi) (by omega) (bY + yi) (by omega), hRGB]
        rfl
      split
      · rw [maskBBox_of_false htm]; rfl
      · rw [maskBBox_of_false hnw]; rfl
  refine ⟨maskBBox_of_false hana, ?_, htight, fun bx bY => htight bx bY⟩
  simp only [get_content_bounds]
  rw [maskBBox_of_false hgcb]
  rfl

/-- Claim C7, witness: all four detectors return `none` on the 1 x 1 opaque
white image (borders 0 for the interior detectors). -/
theorem C7_uniform_background_witness :
    analyze_logo white1 = none ∧
    get_content_bounds white1 = none ∧
    find_tight_content white1 0 0 = none ∧
    remove_border_and_find_content white1 0 0 = none :=
  ⟨(C7_uniform_background white1 (by decide)).1,
   (C7_uniform_background white1 (by decide)).2.1,
   (C7_uniform_background white1 (by decide)).2.2.1 0 0,
   (C7_uniform_background white1 (by decide)).2.2.2 0 0⟩

/-! ### Claim C8 -/

/-- Claim C8, counterexample.  The claim says that with degenerate content
size the square-canvas sizing "produces a side of at least 1".  The code has
no such minimum: when BOTH content width and height are 0 (box
`(5,5,5,5)`), the padded crop is 0 x 0 and `max_dim = max(0,0) = 0`, so the
square canvas has side 0, not `≥ 1`.  (PIL allows zero-size images, so the
script still does not crash.) -/
theorem C8_counterexample :
    (cropFromBBox img100 5 5 5 5 8).width = 0 ∧
    (cropFromBBox img100 5 5 5 5 8).height = 0 := by
  exact ⟨by decide, by decide⟩

/-- Claim C8, amended.  When content width resolves to 0 (`x2 = x1`) the
padding computation yields zero padding on that axis
(`pad_x = ⌊0 · percent / 100⌋ = 0`, so the x-coordinates pass through
unscaled), nothing crashes (every pipeline function is total), and the
square-canvas side is at least 1 PROVIDED the other content dimension is
nonzero and inside the image; if both dimensions are 0 the canvas is 0 x 0
(see the counterexample).  The height-zero case is symmetric. -/
theorem C8_degenerate_geometry (img : Image) (x1 y1 y2 percent : Nat)
    (hy1 : y1 < y2) (hy2 : y2 ≤ img.height) :
    padBounds img.width img.height x1 y1 x1 y2 percent =
      (x1, y1 - (y2 - y1) * percent / 100,
       min img.width x1, min img.height (y2 + (y2 - y1) * percent / 100)) ∧
    1 ≤ (cropFromBBox img x1 y1 x1 y2 percent).width ∧
    1 ≤ (cropFromBBox img x1 y1 x1 y2 percent).height := by
  have hw : (cropFromBBox img x1 y1 x1 y2 percent).width =
      max (min img.width (x1 + (x1 - x1) * percent / 100) -
            (x1 - (x1 - x1) * percent / 100))
          (min img.height (y2 + (y2 - y1) * percent / 100) -
            (y1 - (y2 - y1) * percent / 100)) := rfl
  have hh : (cropFromBBox img x1 y1 x1 y2 percent).height =
      max (min img.width (x1 + (x1 - x1) * percent / 100) -
            (x1 - (x1 - x1) * percent / 100))
          (min img.height (y2 + (y2 - y1) * percent / 100) -
            (y1 - (y2 - y1) * percent / 100)) := rfl
  refine ⟨by simp [padBounds], ?_, ?_⟩
  · rw [hw]; omega
  · rw [hh]; omega

/-- Claim C8, witness: a zero-width box `(5,5)-(5,9)` in `img100` at
8 percent padding — the x padding is zero and the square side is positive. -/
theorem C8_degenerate_geometry_witness :
    padBounds img100.width img100.height 5 5 5 9 8 =
      (5, 5 - (9 - 5) * 8 / 100,
       min img100.width 5, min img100.height (9 + (9 - 5) * 8 / 100)) ∧
    1 ≤ (cropFromBBox img100 5 5 5 9 8).width ∧
    1 ≤ (cropFromBBox img100 5 5 5 9 8).height :=
  C8_degenerate_geometry img100 5 5 9 8 (by decide) (by decide)

/-! ### Claim C9 -/

/-- Claim C9, confirmed.  Every non-null box returned by the three
exclusive-upper-bound detectors has width and height at least 1 pixel, so a
zero content size can never reach the padding or squaring steps through
them. -/
theorem C9_boxes_nondegenerate :
    (∀ (img : Image) (x1 y1 x2 y2 : Nat),
      get_content_bounds img = some (x1, y1, x2, y2) →
      1 ≤ x2 - x1 ∧ 1 ≤ y2 - y1) ∧
    (∀ (img : Image) (bx bY x1 y1 x2 y2 : Nat),
      find_tight_content img bx bY = some (x1, y1, x2, y2) →
      1 ≤ x2 - x1 ∧ 1 ≤ y2 - y1) ∧
    (∀ (img : Image) (bx bY x1 y1 x2 y2 : Nat),
      remove_border_and_find_content img bx bY = some (x1, y1, x2, y2) →
      1 ≤ x2 - x1 ∧ 1 ≤ y2 - y1) := by
  refine ⟨?_, ?_, ?_⟩
  · intro img x1 y1 x2 y2 h
    have := get_content_bounds_bounds h
    omega
  · intro img bx bY x1 y1 x2 y2 h
    have := find_tight_content_bounds h
    omega
  · intro img bx bY x1 y1 x2 y2 h
    have := remove_border_and_find_content_bounds h
    omega

/-- Claim C9, witness: the three detectors on `img100` return the
`(40,40,60,60)` box, of width and height 20 ≥ 1. -/
theorem C9_boxes_nondegenerate_witness :
    ((1:Nat) ≤ 60 - 40 ∧ (1:Nat) ≤ 60 - 40) ∧
    ((1:Nat) ≤ 60 - 40 ∧ (1:Nat) ≤ 60 - 40) ∧
    ((1:Nat) ≤ 60 - 40 ∧ (1:Nat) ≤ 60 - 40) :=
  ⟨C9_boxes_nondegenerate.1 img100 40 40 60 60 (by decide),
   C9_boxes_nondegenerate.2.1 img100 5 5 40 40 60 60 (by decide),
   C9_boxes_nondegenerate.2.2 img100 5 5 40 40 60 60 (by decide)⟩

/-! ### Claim C10 -/

/-- Claim C10, confirmed.  Whenever a detector returns `none`, the matching
crop function returns its input image itself unmodified: no crop, no
padding, no square canvas (`crop_logos.py` lines 44-46,
`crop_logos_tight.py` lines 91-93, `crop_logos_v2.py` lines 95-98). -/
theorem C10_none_passthrough (img : Image) (bx bY percent : Nat) :
    (get_content_bounds img = none → crop_with_padding img percent = img) ∧
    (find_tight_content img bx bY = none →
      crop_tight_with_padding img bx bY percent = img) ∧
    (remove_border_and_find_content img bx bY = none →
      crop_with_padding_v2 img bx bY percent = img) := by
  refine ⟨?_, ?_, ?_⟩
  · intro h
    simp [crop_with_padding, h]
  · intro h
    simp [crop_tight_with_padding, h]
  · intro h
    simp [crop_with_padding_v2, h]

/-- Claim C10, witness: on the all-white 1 x 1 image every detector returns
`none` and each crop function (at its script's default padding) passes the
image through unchanged. -/
theorem C10_none_passthrough_witness :
    crop_with_padding white1 8 = white1 ∧
    crop_tight_with_padding white1 0 0 5 = white1 ∧
    crop_with_padding_v2 white1 0 0 10 = white1 :=
  ⟨(C10_none_passthrough white1 0 0 8).1 (by decide),
   (C10_none_passthrough white1 0 0 5).2.1 (by decide),
   (C10_none_passthrough white1 0 0 10).2.2 (by decide)⟩

end Joyan
